import Mathlib

/-!
Shallow embedding of `src/wine_api_processor.py` (class `WineAPIProcessor`).

Modelling conventions:
* A CSV row produced by `csv.DictReader` is an association list of string
  fields with unique keys; `dict.get(k, d)` is `dictGetD`.
* The environment of one per-row iteration (what the network and runtime do)
  is a `RowInput`: the row itself, the outcome of the outbound call in
  `_make_api_call` (an HTTP response with a status code, a
  `requests.exceptions.RequestException`, or any other raised `Exception`,
  e.g. one raised while mapping fields or sending), whether an exception is
  raised in the per-row body of `process_csv` outside `_make_api_call`
  (`bodyExc`), the value drawn by `random.uniform(-5, 8)` expressed in
  integer cents (`perturbCents`), and the `time.strftime` timestamp string.
* Python floats only appear in `_generate_mock_price`, where every quantity
  is a whole number of cents, so prices are modelled exactly as integer
  cents and `f"${x:.2f}"` as `formatMoney`.
* `int(vintage)` is modelled by `pyIntOfString` (ASCII whitespace stripping,
  optional sign, digits with underscore separators; CPython additionally
  accepts some Unicode whitespace and digits, which no claim depends on).
* File-system and console interaction in `_write_results_csv` is modelled by
  a `WriteEnv`: whether the output path exists, the operator's answer to the
  overwrite prompt, the `datetime.now()` timestamp, and whether the guarded
  write raises.
-/

namespace WineProc

/-- A CSV row / Python dict: association list with first-match lookup. -/
def Row : Type := List (String × String)

/-- Python `dict[k]` lookup (keys are unique, first match decides). -/
def dictLookup : Row → String → Option String
  | [], _ => none
  | (k, v) :: rest, key => if k = key then some v else dictLookup rest key

/-- Python `dict.get(key, default)`. -/
def dictGetD (d : Row) (key deflt : String) : String :=
  (dictLookup d key).getD deflt

/-- Python `dict[k] = v` on an association list: update in place or append. -/
def dictSet : Row → String → String → Row
  | [], k, v => [(k, v)]
  | (k0, v0) :: rest, k, v =>
      if k0 = k then (k0, v) :: rest else (k0, v0) :: dictSet rest k v

/-- What the world does during one `_make_api_call`: the HTTP request
completes with a status code, raises `requests.exceptions.RequestException`,
or some other `Exception` is raised (field mapping / sending). -/
inductive CallOutcome where
  | response : Nat → CallOutcome
  | requestExc : CallOutcome
  | otherExc : CallOutcome
deriving DecidableEq

/-- The environment of one iteration of the row loop in `process_csv`. -/
structure RowInput where
  row : Row
  call : CallOutcome
  bodyExc : Bool
  perturbCents : Int
  timestamp : String

/-- The `stats` dictionary of `process_csv`. -/
structure Stats where
  total_rows : Nat
  successful_calls : Nat
  failed_calls : Nat
  skipped_rows : Nat
deriving DecidableEq

/-- The `stats` dict as initialized at the top of `process_csv`. -/
def initStats : Stats := ⟨0, 0, 0, 0⟩

/-- One entry of the `results` list built by `process_csv`. -/
structure ProcResult where
  rowNum : Nat
  wineName : String
  vintage : String
  status : String
  mockPrice : String
  timestamp : String
deriving DecidableEq

/-- ASCII whitespace recognized by Python `str.strip()` / `int()`. -/
def isPyWs (c : Char) : Bool :=
  c = ' ' || c = '\t' || c = '\n' || c = '\r' || c = '\x0b' || c = '\x0c'

/-- Strip leading and trailing whitespace from a character list. -/
def pyStripChars (l : List Char) : List Char :=
  ((l.dropWhile isPyWs).reverse.dropWhile isPyWs).reverse

/-- Numeric value of a decimal digit character. -/
def digitVal (c : Char) : Nat := c.toNat - 48

/-- Continue parsing the digit part of a Python integer literal after the
first digit: further digits, with single underscores allowed between
digits. -/
def parseDigitsRest (acc : Nat) : List Char → Option Nat
  | [] => some acc
  | ['_'] => none
  | '_' :: c :: rest =>
      if c.isDigit then parseDigitsRest (acc * 10 + digitVal c) rest else none
  | c :: rest =>
      if c.isDigit then parseDigitsRest (acc * 10 + digitVal c) rest else none

/-- Parse the digit part of a Python integer literal (nonempty, must start
with a digit; underscores only between digits). -/
def parseDigits : List Char → Option Nat
  | [] => none
  | c :: rest =>
      if c.isDigit then parseDigitsRest (digitVal c) rest else none

/-- Model of Python `int(s)` for a string argument: strip whitespace, then
an optional sign followed by digits; `none` models the `ValueError`. -/
def pyIntOfString (s : String) : Option Int :=
  match pyStripChars s.data with
  | '+' :: rest => (parseDigits rest).map (fun n => (n : Int))
  | '-' :: rest => (parseDigits rest).map (fun n => -(n : Int))
  | l => (parseDigits l).map (fun n => (n : Int))

/-- Left-pad a two-digit cents value, as `f"{x:.2f}"` does. -/
def pad2 (n : Nat) : String :=
  if n < 10 then "0" ++ toString n else toString n

/-- Render an exact amount of cents the way `f"${x:.2f}"` renders the
corresponding dollar amount. -/
def formatMoney (cents : Int) : String :=
  if cents < 0 then
    "$-" ++ toString ((-cents).toNat / 100) ++ "." ++ pad2 ((-cents).toNat % 100)
  else
    "$" ++ toString (cents.toNat / 100) ++ "." ++ pad2 (cents.toNat % 100)

/-- Model of `WineAPIProcessor._generate_mock_price`.  `enableMockPricing` is
`self.enable_mock_pricing`; `perturbCents` is the value drawn by
`random.uniform(-5, 8)`, in cents.  (The source also computes
`current_year = datetime.now().year` but never uses it.) -/
def generateMockPrice (enableMockPricing : Bool) (perturbCents : Int)
    (vintage : String) : String :=
  if !enableMockPricing then "N/A"
  else
    match pyIntOfString vintage with
    | none => "$32.99"
    | some year =>
        let base : Int :=
          if year < 2000 then 25
          else if year < 2010 then 35
          else if year < 2020 then 28
          else 22
        formatMoney (100 * base + perturbCents)

/-- The fixed bracket table of the spec: base price by vintage decade. -/
def bracketBase (year : Int) : Int :=
  if year < 2000 then 25
  else if year < 2010 then 35
  else if year < 2020 then 28
  else 22

/-- The `field_mapping` dict of `_make_api_call`, in insertion order. -/
def fieldMapping : List (String × String) :=
  [("Wine Name", "winename"), ("\uFEFFWine Name", "winename"),
   ("Vintage", "vintage")]

/-- The `mapped_row` loop of `_make_api_call`: for each `(csv_field,
api_field)` of `field_mapping`, if the CSV field is present, assign its
value to the API field (later assignments overwrite earlier ones). -/
def mapRow (row : Row) : Row :=
  fieldMapping.foldl
    (fun m p =>
      match dictLookup row p.1 with
      | some v => dictSet m p.2 v
      | none => m)
    []

/-- Uppercase hexadecimal digit, as `urllib.parse` produces. -/
def hexDigit (n : Nat) : Char :=
  if n < 10 then Char.ofNat (48 + n) else Char.ofNat (55 + n)

/-- Percent-encoding of one UTF-8 byte under `quote_plus`: space becomes
`+`, unreserved ASCII bytes stay, everything else is `%XX`. -/
def quotePlusByte (b : Nat) : String :=
  if b = 32 then "+"
  else if (48 ≤ b ∧ b ≤ 57) ∨ (65 ≤ b ∧ b ≤ 90) ∨ (97 ≤ b ∧ b ≤ 122)
          ∨ b = 45 ∨ b = 46 ∨ b = 95 ∨ b = 126 then
    String.singleton (Char.ofNat b)
  else
    "%" ++ String.singleton (hexDigit (b / 16)) ++ String.singleton (hexDigit (b % 16))

/-- Model of `urllib.parse.quote_plus` over the UTF-8 bytes of the string. -/
def quotePlus (s : String) : String :=
  String.join (s.toUTF8.toList.map (fun b => quotePlusByte b.toNat))

/-- The `params` dict of `_make_api_call`, in insertion order: the fixed
parameter set, the optional mock price, then the hardcoded country. -/
def buildParams (apiKey : String) (enableMockPricing : Bool)
    (perturbCents : Int) (row : Row) : List (String × String) :=
  let m := mapRow row
  let base :=
    [("api_key", apiKey),
     ("winename", quotePlus (dictGetD m "winename" "")),
     ("vintage", dictGetD m "vintage" ""),
     ("currencycode", "USD"),
     ("location", "MA"),
     ("state", "MA"),
     ("offer_type", "sale")]
  let withPrice :=
    if enableMockPricing then
      base ++ [("price", generateMockPrice enableMockPricing perturbCents
                  (dictGetD m "vintage" ""))]
    else base
  withPrice ++ [("country", "USA")]

/-- Return value of `WineAPIProcessor._make_api_call`: the whole body is
wrapped in `try`, so the function never raises; it returns `True` exactly
when the request completed with `response.status_code == 200`, and `False`
for every other status code, every `RequestException`, and every other
`Exception` raised during mapping or sending. -/
def makeApiCall : CallOutcome → Bool
  | .response code => code = 200
  | .requestExc => false
  | .otherExc => false

/-- The result dict appended to `results` for one row of `process_csv`
(both the normal branch and the `except` branch build this shape; only the
`Status` field differs between them). -/
def mkResult (enableMockPricing : Bool) (rowNum : Nat) (ri : RowInput) :
    ProcResult :=
  let wineName := dictGetD ri.row "Wine Name" (dictGetD ri.row "\uFEFFWine Name" "Unknown")
  let vintage := dictGetD ri.row "Vintage" "Unknown"
  { rowNum := rowNum
    wineName := wineName
    vintage := vintage
    status :=
      if ri.bodyExc then "Error"
      else if makeApiCall ri.call then "Success" else "Failed"
    mockPrice := generateMockPrice enableMockPricing ri.perturbCents vintage
    timestamp := ri.timestamp }

/-- The `for row_num, row in enumerate(reader, start=2)` loop of
`process_csv`, threading `stats`, accumulating `results`, and counting how
many times `time.sleep(self.rate_limit_delay)` runs.  If an exception is
raised in the row body outside `_make_api_call` (`bodyExc`), the `except`
branch increments `failed_calls`, appends an `Error` result and continues
without sleeping; otherwise the result of `_make_api_call` decides the
counter and status, and the loop sleeps exactly when
`row_num < stats['total_rows']` holds after the increment at the top. -/
def processRows (enableMockPricing : Bool) :
    List RowInput → Nat → Stats → Stats × List ProcResult × Nat
  | [], _, st => (st, [], 0)
  | ri :: rest, rowNum, st =>
      let st1 : Stats := { st with total_rows := st.total_rows + 1 }
      if ri.bodyExc then
        let st2 : Stats := { st1 with failed_calls := st1.failed_calls + 1 }
        let r := processRows enableMockPricing rest (rowNum + 1) st2
        (r.1, mkResult enableMockPricing rowNum ri :: r.2.1, r.2.2)
      else
        let success := makeApiCall ri.call
        let st2 : Stats :=
          if success then { st1 with successful_calls := st1.successful_calls + 1 }
          else { st1 with failed_calls := st1.failed_calls + 1 }
        let sleepHere : Bool := rowNum < st1.total_rows
        let r := processRows enableMockPricing rest (rowNum + 1) st2
        (r.1, mkResult enableMockPricing rowNum ri :: r.2.1,
         (if sleepHere then 1 else 0) + r.2.2)

/-- Python `s.replace(".csv", new)` on character lists: scan left to right,
replacing non-overlapping occurrences of `".csv"`, never rescanning the
replacement text. -/
def replaceDotCsv (new : List Char) : List Char → List Char
  | '.' :: 'c' :: 's' :: 'v' :: rest => new ++ replaceDotCsv new rest
  | c :: rest => c :: replaceDotCsv new rest
  | [] => []

/-- Does `".csv"` occur anywhere in the character list? -/
def containsDotCsv : List Char → Bool
  | '.' :: 'c' :: 's' :: 'v' :: _ => true
  | _ :: rest => containsDotCsv rest
  | [] => false

/-- How many occurrences of `".csv"` the left-to-right scan of
`str.replace` finds. -/
def countDotCsv : List Char → Nat
  | '.' :: 'c' :: 's' :: 'v' :: rest => 1 + countDotCsv rest
  | _ :: rest => countDotCsv rest
  | [] => 0

/-- Python `s.replace(".csv", new)` on strings. -/
def pyReplaceDotCsv (s new : String) : String :=
  ⟨replaceDotCsv new.data s.data⟩

/-- Lowercase an ASCII letter, as `str.lower()` does on ASCII input. -/
def pyLowerChar (c : Char) : Char :=
  if 'A' ≤ c ∧ c ≤ 'Z' then Char.ofNat (c.toNat + 32) else c

/-- Python `s.lower()` (ASCII; Unicode case folding is not needed here). -/
def pyLower (s : String) : String := ⟨s.data.map pyLowerChar⟩

/-- Python `s.strip()` (ASCII whitespace). -/
def pyStrip (s : String) : String := ⟨pyStripChars s.data⟩

/-- Result of `input(...).strip().lower()` applied to the operator's raw answer. -/
def pyStripLower (s : String) : String := pyLower (pyStrip s)

/-- Environment of one `_write_results_csv` call: whether
`os.path.exists(output_csv_path)` holds, the raw operator answer to the
overwrite prompt, the `datetime.now().strftime("%Y%m%d_%H%M%S")` value, and
whether the guarded `open`/write block raises an exception. -/
structure WriteEnv where
  outputExists : Bool
  answer : String
  timestamp : String
  writeFails : Bool

/-- The path `csv_file_path.replace('.csv', '_results.csv')`. -/
def outputCsvPath (csvPath : String) : String :=
  pyReplaceDotCsv csvPath "_results.csv"

/-- The path `csv_file_path.replace('.csv', f'_results_X.csv')` with `X` the `datetime.now()` timestamp. -/
def altCsvPath (csvPath ts : String) : String :=
  pyReplaceDotCsv csvPath ("_results_" ++ ts ++ ".csv")

/-- The path `_write_results_csv` finally opens: the `_results.csv` path,
unless it exists and the operator's stripped, lowercased answer is not `y`
or `yes`, in which case the timestamp-suffixed path. -/
def chosenOutputPath (csvPath : String) (env : WriteEnv) : String :=
  let out := outputCsvPath csvPath
  if env.outputExists then
    let ans := pyStripLower env.answer
    if ans = "y" ∨ ans = "yes" then out else altCsvPath csvPath env.timestamp
  else out

/-- The CSV header written, depending on `enable_mock_pricing`. -/
def resultsHeader (enableMockPricing : Bool) : List String :=
  if enableMockPricing then
    ["Row", "Wine Name", "Vintage", "Status", "Mock Price", "Timestamp"]
  else
    ["Row", "Wine Name", "Vintage", "Status", "Timestamp"]

/-- Observable effect of one `_write_results_csv` call. -/
structure WriteEffect where
  path : String
  wrote : Bool
  errorLogged : Bool
  header : List String
deriving DecidableEq

/-- Model of `WineAPIProcessor._write_results_csv`: choose the output path (with the
interactive overwrite check), then attempt the write inside `try`; any
exception in the write block is caught and logged, so the function always
returns. -/
def writeResultsCsv (enableMockPricing : Bool) (results : List ProcResult)
    (csvPath : String) (env : WriteEnv) : WriteEffect :=
  let path := chosenOutputPath csvPath env
  if env.writeFails then
    { path := path, wrote := false, errorLogged := true,
      header := resultsHeader enableMockPricing }
  else
    { path := path, wrote := true, errorLogged := false,
      header := resultsHeader enableMockPricing }

/-- What happens when `process_csv` opens the input file. -/
inductive OpenOutcome where
  | ok : OpenOutcome
  | notFound : OpenOutcome
  | readError : OpenOutcome

/-- The exceptions `process_csv` re-raises to its caller. -/
inductive RunError where
  | fileNotFound : RunError
  | ioError : RunError
deriving DecidableEq

/-- Everything a completed `process_csv` run produces: the returned
`stats`, the in-memory `results` list, the number of `time.sleep` calls
performed, and the effect of the results-writing step. -/
structure RunOutput where
  stats : Stats
  results : List ProcResult
  sleeps : Nat
  writeEffect : WriteEffect

/-- Model of `WineAPIProcessor.process_csv`: a `FileNotFoundError` or any other
exception while reading is re-raised; otherwise the row loop runs (starting
at `row_num = 2` with zeroed `stats`), `_write_results_csv` is invoked
exactly once, and the final `stats` are returned. -/
def processCsv (enableMockPricing : Bool) (openO : OpenOutcome)
    (rows : List RowInput) (csvPath : String) (env : WriteEnv) :
    Except RunError RunOutput :=
  match openO with
  | .notFound => .error .fileNotFound
  | .readError => .error .ioError
  | .ok =>
      let r := processRows enableMockPricing rows 2 initStats
      .ok { stats := r.1, results := r.2.1, sleeps := r.2.2,
            writeEffect := writeResultsCsv enableMockPricing r.2.1 csvPath env }

/-- Status classification as the amended claim C1 states it: an exception
in the row body outside `_make_api_call` gives `Error`; otherwise a
completed call with status code 200 gives `Success` and everything else —
every other status code, every `RequestException`, and every other
exception raised during mapping or sending — gives `Failed`. -/
def expectedStatus (ri : RowInput) : String :=
  if ri.bodyExc then "Error"
  else if ri.call = CallOutcome.response 200 then "Success" else "Failed"

theorem makeApiCall_true_iff (c : CallOutcome) :
    makeApiCall c = true ↔ c = CallOutcome.response 200 := by
  cases c with
  | response code => simp [makeApiCall]
  | requestExc => simp [makeApiCall]
  | otherExc => simp [makeApiCall]

theorem mkResult_status (em : Bool) (n : Nat) (ri : RowInput) :
    (mkResult em n ri).status = expectedStatus ri := by
  by_cases hb : ri.bodyExc
  · simp [mkResult, expectedStatus, hb]
  · by_cases hc : ri.call = CallOutcome.response 200
    · have hm : makeApiCall ri.call = true := (makeApiCall_true_iff ri.call).mpr hc
      rw [hc] at hm
      simp [mkResult, expectedStatus, hb, hc, hm]
    · have : makeApiCall ri.call = false := by
        cases hmc : makeApiCall ri.call
        · rfl
        · exact absurd ((makeApiCall_true_iff ri.call).mp hmc) hc
      simp [mkResult, expectedStatus, hb, hc, this]

theorem mkResult_rowNum (em : Bool) (n : Nat) (ri : RowInput) :
    (mkResult em n ri).rowNum = n := rfl

theorem processRows_length (em : Bool) (rows : List RowInput) :
    ∀ (rowNum : Nat) (st : Stats),
      (processRows em rows rowNum st).2.1.length = rows.length := by
  induction rows with
  | nil => intro rowNum st; rfl
  | cons ri rest ih =>
      intro rowNum st
      by_cases hb : ri.bodyExc
      · simp [processRows, hb, ih]
      · simp [processRows, hb, ih]

theorem processRows_get? (em : Bool) (rows : List RowInput) :
    ∀ (rowNum : Nat) (st : Stats) (i : Nat),
      (processRows em rows rowNum st).2.1.get? i
        = (rows.get? i).map (fun ri => mkResult em (rowNum + i) ri) := by
  induction rows with
  | nil => intro rowNum st i; cases i <;> rfl
  | cons ri rest ih =>
      intro rowNum st i
      cases i with
      | zero =>
          by_cases hb : ri.bodyExc
          · simp [processRows, hb]
          · simp [processRows, hb]
      | succ i =>
          have harith : rowNum + 1 + i = rowNum + (i + 1) := by omega
          by_cases hb : ri.bodyExc
          · simp only [processRows, hb, if_pos, List.get?]
            rw [ih, harith]
          · simp only [processRows, hb, if_neg, List.get?]
            rw [ih, harith]

theorem processRows_skipped (em : Bool) (rows : List RowInput) :
    ∀ (rowNum : Nat) (st : Stats),
      (processRows em rows rowNum st).1.skipped_rows = st.skipped_rows := by
  induction rows with
  | nil => intro rowNum st; rfl
  | cons ri rest ih =>
      intro rowNum st
      by_cases hb : ri.bodyExc
      · simp [processRows, hb, ih]
      · by_cases hs : makeApiCall ri.call
        · simp [processRows, hb, hs, ih]
        · simp [processRows, hb, hs, ih]

theorem processRows_sleeps_zero (em : Bool) (rows : List RowInput) :
    ∀ (rowNum : Nat) (st : Stats), st.total_rows + 1 ≤ rowNum →
      (processRows em rows rowNum st).2.2 = 0 := by
  induction rows with
  | nil => intro rowNum st h; rfl
  | cons ri rest ih =>
      intro rowNum st h
      by_cases hb : ri.bodyExc
      · simp only [processRows, hb, if_pos]
        exact ih (rowNum + 1) _ (by simp; omega)
      · have hns : ¬ (rowNum < st.total_rows + 1) := by omega
        by_cases hs : makeApiCall ri.call
        · simp [processRows, hb, hs, hns]
          exact ih (rowNum + 1) _ (by simp; omega)
        · simp [processRows, hb, hs, hns]
          exact ih (rowNum + 1) _ (by simp; omega)

theorem replaceDotCsv_of_not_contains (new : List Char) (l : List Char)
    (h : containsDotCsv l = false) : replaceDotCsv new l = l := by
  induction l using replaceDotCsv.induct new with
  | case1 rest ih => simp [containsDotCsv] at h
  | case2 c rest hne ih =>
      rw [containsDotCsv] at h
      · rw [replaceDotCsv]
        · rw [ih h]
        · exact hne
      · exact hne
  | case3 => rfl

theorem length_replaceDotCsv (new : List Char) (l : List Char) :
    (replaceDotCsv new l).length + 4 * countDotCsv l
      = l.length + new.length * countDotCsv l := by
  induction l using replaceDotCsv.induct new with
  | case1 rest ih =>
      rw [replaceDotCsv, countDotCsv]
      simp only [List.length_append, List.length_cons]
      rw [Nat.mul_add, Nat.mul_add]
      omega
  | case2 c rest hne ih =>
      rw [replaceDotCsv]
      · rw [countDotCsv]
        · simp only [List.length_cons]
          omega
        · exact hne
      · exact hne
  | case3 => rfl

theorem countDotCsv_pos (l : List Char) (h : containsDotCsv l = true) :
    1 ≤ countDotCsv l := by
  induction l using countDotCsv.induct with
  | case1 rest ih => rw [countDotCsv]; omega
  | case2 c rest hne ih =>
      rw [containsDotCsv] at h
      · rw [countDotCsv]
        · exact ih h
        · exact hne
      · exact hne
  | case3 => simp [containsDotCsv] at h

theorem outputCsvPath_of_not_contains (s : String)
    (h : containsDotCsv s.data = false) : outputCsvPath s = s := by
  show String.mk (replaceDotCsv ("_results.csv" : String).data s.data) = s
  rw [replaceDotCsv_of_not_contains _ _ h]

theorem altCsvPath_ne_outputCsvPath (csvPath ts : String)
    (h : containsDotCsv csvPath.data = true) :
    altCsvPath csvPath ts ≠ outputCsvPath csvPath := by
  intro heq
  have hdata : replaceDotCsv ("_results_" ++ ts ++ ".csv").data csvPath.data
      = replaceDotCsv ("_results.csv" : String).data csvPath.data :=
    congrArg String.data heq
  have hL : (replaceDotCsv ("_results_" ++ ts ++ ".csv").data csvPath.data).length
      = (replaceDotCsv ("_results.csv" : String).data csvPath.data).length := by
    rw [hdata]
  have h1 := length_replaceDotCsv ("_results_" ++ ts ++ ".csv").data csvPath.data
  have h2 := length_replaceDotCsv ("_results.csv" : String).data csvPath.data
  have hk := countDotCsv_pos csvPath.data h
  have hlen1 : ("_results_" ++ ts ++ ".csv").data.length = 13 + ts.data.length := by
    have e : ("_results_" ++ ts ++ ".csv").data
        = "_results_".data ++ ts.data ++ ".csv".data := rfl
    have e9 : ("_results_" : String).data.length = 9 := rfl
    have e4 : (".csv" : String).data.length = 4 := rfl
    rw [e]
    simp only [List.length_append]
    rw [e9, e4]
    omega
  have hlen2 : ("_results.csv" : String).data.length = 12 := rfl
  rw [hlen1] at h1
  rw [hlen2] at h2
  rw [Nat.add_mul] at h1
  generalize ts.data.length * countDotCsv csvPath.data = m at h1
  omega

/-- C1 (counterexample to the claim as stated): a row where an exception
is raised during request construction or sending (`CallOutcome.otherExc`)
gets status `"Failed"`, not `"Error"`: `_make_api_call` catches every
`Exception` and returns `False`, so the `except` branch of `process_csv`
that produces `"Error"` is not reached. -/
theorem C1_mapping_exception_yields_failed :
    ∃ out,
      processCsv false .ok
          [⟨[("Wine Name", "A"), ("Vintage", "1999")],
            CallOutcome.otherExc, false, 0, "t"⟩]
          "wines.csv" ⟨false, "", "", false⟩ = .ok out ∧
      out.results.map (fun r => r.status) = ["Failed"] ∧
      ("Failed" : String) ≠ "Error" := by
  refine ⟨_, rfl, ?_, by decide⟩
  rfl

/-- C1 (amended): for every row, the status recorded in its
`ProcessingResult` is `"Error"` exactly when an exception is raised in the
per-row body outside `_make_api_call`; otherwise it is `"Success"` when the
outbound call completes with status code 200 and `"Failed"` in every other
case — including every exception raised during request construction or
sending, which `_make_api_call` catches and converts into `False`. -/
theorem C1_row_status_classification (em : Bool) (rows : List RowInput)
    (csvPath : String) (env : WriteEnv) (i : Nat) (h : i < rows.length) :
    ∃ out, processCsv em .ok rows csvPath env = .ok out ∧
      (out.results.get? i).map (fun r => r.status)
        = some (expectedStatus (rows.get ⟨i, h⟩)) := by
  refine ⟨_, rfl, ?_⟩
  show ((processRows em rows 2 initStats).2.1.get? i).map (fun r => r.status)
      = some (expectedStatus (rows.get ⟨i, h⟩))
  rw [processRows_get?, List.get?_eq_get h]
  simp only [Option.map_some']
  rw [mkResult_status]

theorem C1_row_status_classification_witness :
    0 < ([⟨[("Wine Name", "A"), ("Vintage", "1999")],
            CallOutcome.otherExc, false, 0, "t"⟩] : List RowInput).length ∧
    ∃ out, processCsv false .ok
        [⟨[("Wine Name", "A"), ("Vintage", "1999")],
          CallOutcome.otherExc, false, 0, "t"⟩]
        "wines.csv" ⟨false, "", "", false⟩ = .ok out ∧
      (out.results.get? 0).map (fun r => r.status)
        = some (expectedStatus
            (([⟨[("Wine Name", "A"), ("Vintage", "1999")],
                CallOutcome.otherExc, false, 0, "t"⟩] : List RowInput).get
              ⟨0, by decide⟩)) :=
  ⟨by decide,
   C1_row_status_classification false
     [⟨[("Wine Name", "A"), ("Vintage", "1999")],
       CallOutcome.otherExc, false, 0, "t"⟩]
     "wines.csv" ⟨false, "", "", false⟩ 0 (by decide)⟩

/-- C2: contrary to the claim (and to the comment in the source), the
rate-limit `time.sleep` never runs at all: the guard
`row_num < stats['total_rows']` compares `row_num` (which starts at 2) with
the number of rows counted so far (which is always exactly `row_num - 1`),
so it is false on every iteration.  On every input the number of performed
sleeps is 0, not N-1. -/
theorem C2_rate_limit_sleep_never_runs (em : Bool) (rows : List RowInput)
    (csvPath : String) (env : WriteEnv) :
    ∃ out, processCsv em .ok rows csvPath env = .ok out ∧ out.sleeps = 0 :=
  ⟨_, rfl, processRows_sleeps_zero em rows 2 initStats (by decide)⟩

/-- C3: a run over N data rows produces exactly N `ProcessingResult`
entries (also for rows classified `Error`), and the entry at 0-based index
`i` carries row number `i + 2`, i.e. its 1-based position plus the header
offset. -/
theorem C3_one_result_per_row (em : Bool) (rows : List RowInput)
    (csvPath : String) (env : WriteEnv) :
    ∃ out, processCsv em .ok rows csvPath env = .ok out ∧
      out.results.length = rows.length ∧
      ∀ (i : Nat) (hi : i < out.results.length),
        (out.results.get ⟨i, hi⟩).rowNum = i + 2 := by
  refine ⟨_, rfl, processRows_length em rows 2 initStats, ?_⟩
  intro i hi
  have hlen : i < rows.length := by
    rw [← processRows_length em rows 2 initStats]
    exact hi
  have hg : (processRows em rows 2 initStats).2.1.get? i
      = some ((processRows em rows 2 initStats).2.1.get ⟨i, hi⟩) :=
    List.get?_eq_get hi
  rw [processRows_get?, List.get?_eq_get hlen] at hg
  simp only [Option.map_some'] at hg
  have := Option.some.inj hg
  rw [← this, mkResult_rowNum]
  omega

theorem C3_one_result_per_row_witness :
    ∃ out, processCsv false .ok
        [⟨[("Wine Name", "B"), ("Vintage", "2012")],
          CallOutcome.response 200, false, 0, "t"⟩]
        "wines.csv" ⟨false, "", "", false⟩ = .ok out ∧
      out.results.length = 1 ∧
      ∀ (i : Nat) (hi : i < out.results.length),
        (out.results.get ⟨i, hi⟩).rowNum = i + 2 :=
  C3_one_result_per_row false
    [⟨[("Wine Name", "B"), ("Vintage", "2012")],
      CallOutcome.response 200, false, 0, "t"⟩]
    "wines.csv" ⟨false, "", "", false⟩

/-- C4: `_make_api_call` classifies exactly the status code 200 as success
(returns `True`); every other response status code, every
`RequestException`, and every other exception make it return `False` — the
function catches everything and never raises. -/
theorem C4_exactly_one_success_code :
    (∀ code : Nat, makeApiCall (CallOutcome.response code) = true ↔ code = 200) ∧
    makeApiCall CallOutcome.requestExc = false ∧
    makeApiCall CallOutcome.otherExc = false := by
  refine ⟨fun code => ?_, rfl, rfl⟩
  simp [makeApiCall]

/-- C5: with mock pricing enabled, a parsable vintage selects the base
price by bracket (pre-2000 gives 25, 2000s give 35, 2010s give 28, 2020
and later give 22), the uniform perturbation from [-5, 8) is added, and
the sum is rendered as a two-decimal currency string; an unparsable
vintage yields the fixed fallback string `"$32.99"`. -/
theorem C5_mock_price_brackets (v : Int) (hlo : -500 ≤ v) (hhi : v < 800)
    (vint : String) :
    (∀ y : Int, pyIntOfString vint = some y →
        generateMockPrice true v vint = formatMoney (100 * bracketBase y + v)) ∧
    (pyIntOfString vint = none → generateMockPrice true v vint = "$32.99") ∧
    (∀ y : Int, y < 2000 → bracketBase y = 25) ∧
    (∀ y : Int, 2000 ≤ y → y < 2010 → bracketBase y = 35) ∧
    (∀ y : Int, 2010 ≤ y → y < 2020 → bracketBase y = 28) ∧
    (∀ y : Int, 2020 ≤ y → bracketBase y = 22) := by
  refine ⟨?_, ?_, ?_, ?_, ?_, ?_⟩
  · intro y hy
    simp [generateMockPrice, hy, bracketBase]
  · intro hn
    simp [generateMockPrice, hn]
  · intro y hy
    simp only [bracketBase]
    rw [if_pos hy]
  · intro y hy1 hy2
    simp only [bracketBase]
    rw [if_neg (by omega), if_pos (by omega)]
  · intro y hy1 hy2
    simp only [bracketBase]
    rw [if_neg (by omega), if_neg (by omega), if_pos (by omega)]
  · intro y hy
    simp only [bracketBase]
    rw [if_neg (by omega), if_neg (by omega), if_neg (by omega)]

theorem C5_mock_price_brackets_witness :
    (-500 : Int) ≤ 37 ∧ (37 : Int) < 800 ∧
    generateMockPrice true 37 "1995" = formatMoney (100 * bracketBase 1995 + 37) ∧
    generateMockPrice true 37 "N/A-text" = "$32.99" :=
  ⟨by decide, by decide,
   (C5_mock_price_brackets 37 (by decide) (by decide) "1995").1 1995 (by decide),
   (C5_mock_price_brackets 37 (by decide) (by decide) "N/A-text").2.1 (by decide)⟩

/-- C6: with mock pricing disabled, `_generate_mock_price` returns the
literal `"N/A"` for every vintage string, parsable or not, and for every
random draw. -/
theorem C6_disabled_returns_not_applicable (v : Int) (vint : String) :
    generateMockPrice false v vint = "N/A" := rfl

/-- C7: the `skipped_rows` counter of the returned statistics is 0 on
every run: it is initialized to 0 and no code path increments it. -/
theorem C7_skipped_counter_always_zero (em : Bool) (rows : List RowInput)
    (csvPath : String) (env : WriteEnv) :
    ∃ out, processCsv em .ok rows csvPath env = .ok out ∧
      out.stats.skipped_rows = 0 :=
  ⟨_, rfl, processRows_skipped em rows 2 initStats⟩

/-- C8: whether or not the guarded write block of `_write_results_csv`
raises, `process_csv` still completes without an error (the exception is
caught and logged inside `_write_results_csv`), and the returned statistics
are exactly the ones accumulated by the row loop, unchanged. -/
theorem C8_write_failure_does_not_propagate (em : Bool)
    (rows : List RowInput) (csvPath : String) (env : WriteEnv) :
    ∃ o1 o2,
      processCsv em .ok rows csvPath { env with writeFails := true } = .ok o1 ∧
      processCsv em .ok rows csvPath { env with writeFails := false } = .ok o2 ∧
      o1.writeEffect.errorLogged = true ∧
      o1.writeEffect.wrote = false ∧
      o1.stats = o2.stats ∧
      o1.stats = (processRows em rows 2 initStats).1 :=
  ⟨_, _, rfl, rfl, rfl, rfl, rfl, rfl⟩

/-- C9 (counterexample to the claim as stated): for the input path
`"winedata"`, which contains no `".csv"`, the timestamp-suffixed
"alternate" path produced after declining the overwrite prompt is the very
same path as the original results path (both `str.replace` calls are
no-ops), so the alternate path is not distinct. -/
theorem C9_decline_can_collide :
    pyStripLower "n" ≠ "y" ∧ pyStripLower "n" ≠ "yes" ∧
    chosenOutputPath "winedata" ⟨true, "n", "20260101_000000", false⟩
      = outputCsvPath "winedata" ∧
    outputCsvPath "winedata" = "winedata" := by decide

/-- C9 (amended): when the computed results path already exists, the writer
asks whether to overwrite; if the operator accepts (`y`/`yes` after
stripping and lowercasing) it writes to the original results path, and if
the operator declines it writes to the timestamp-suffixed path, which is
distinct from the original results path provided the input path contains
the substring `".csv"` (for an input path without `".csv"` both paths
collapse to the input path itself). -/
theorem C9_overwrite_protection (csvPath : String) (env : WriteEnv)
    (hc : containsDotCsv csvPath.data = true)
    (he : env.outputExists = true) :
    (¬(pyStripLower env.answer = "y" ∨ pyStripLower env.answer = "yes") →
        chosenOutputPath csvPath env = altCsvPath csvPath env.timestamp ∧
        altCsvPath csvPath env.timestamp ≠ outputCsvPath csvPath) ∧
    ((pyStripLower env.answer = "y" ∨ pyStripLower env.answer = "yes") →
        chosenOutputPath csvPath env = outputCsvPath csvPath) := by
  constructor
  · intro hd
    refine ⟨?_, altCsvPath_ne_outputCsvPath csvPath env.timestamp hc⟩
    simp [chosenOutputPath, he, hd]
  · intro ha
    simp [chosenOutputPath, he, ha]

theorem C9_overwrite_protection_witness :
    containsDotCsv ("wines.csv" : String).data = true ∧
    chosenOutputPath "wines.csv" ⟨true, "n", "20260101_000000", false⟩
      = altCsvPath "wines.csv" "20260101_000000" ∧
    altCsvPath "wines.csv" "20260101_000000" ≠ outputCsvPath "wines.csv" :=
  ⟨by decide,
   ((C9_overwrite_protection "wines.csv" ⟨true, "n", "20260101_000000", false⟩
      (by decide) rfl).1 (by decide)).1,
   ((C9_overwrite_protection "wines.csv" ⟨true, "n", "20260101_000000", false⟩
      (by decide) rfl).1 (by decide)).2⟩

/-- C10: the results path substitutes `"_results.csv"` for every occurrence
of `".csv"` in the input path; when the input path contains no `".csv"` the
computed results path is the input path itself (so the writer targets the
input file), and multiple occurrences are all substituted. -/
theorem C10_results_path_by_substitution :
    (∀ s : String, containsDotCsv s.data = false → outputCsvPath s = s) ∧
    outputCsvPath "a.csvb.csv" = "a_results.csvb_results.csv" ∧
    outputCsvPath "winedata" = "winedata" := by
  refine ⟨fun s h => outputCsvPath_of_not_contains s h, by decide, by decide⟩

theorem C10_results_path_by_substitution_witness :
    containsDotCsv ("winedata" : String).data = false ∧
    outputCsvPath "winedata" = "winedata" :=
  ⟨by decide, C10_results_path_by_substitution.1 "winedata" (by decide)⟩

end WineProc
